import Mathlib

/-!
Shallow embedding of the multi-party claimable-balance Soroban contract
(src/src/lib.rs).  Addresses are modelled as naturals, i128 amounts as
integers, u64 timestamps as naturals, soroban `Vec` as `List`.  The
contract's instance storage is a record holding the `Init` flag and the
optional `Balance` entry.  A panic in the contract aborts the invocation
with no state change, so each entry point is embedded as a function
returning `Except Error (ContractState × List Transfer)`: an `.error`
outcome leaves the state untouched and performs no transfer, while `.ok`
carries the post-state and the token transfers the invocation performed.
Authorization (`require_auth`) is modelled by a predicate `auth` saying
which identities the current invocation is authenticated for, and the
ledger timestamp is an explicit `now` argument.
-/

namespace MultiPartyTimelock

/-- soroban `Address`, modelled as a natural number identity. -/
abbrev Address := Nat

/-- `TimeBoundKind` from the source: `Before` or `After`. -/
inductive TimeBoundKind where
  | Before
  | After
deriving DecidableEq, Repr

/-- `TimeBound` from the source: a kind and a u64 timestamp. -/
structure TimeBound where
  kind : TimeBoundKind
  timestamp : Nat
deriving DecidableEq, Repr

/-- `ClaimableBalance` from the source (the escrow record stored under
`DataKey::Balance`). -/
structure ClaimableBalance where
  token : Address
  amount_per_beneficiary : Int
  total_amount : Int
  beneficiaries : List Address
  claimed_beneficiaries : List Address
  time_bound : TimeBound
deriving DecidableEq, Repr

/-- The contract instance storage: the `Init` flag (presence of
`DataKey::Init`) and the optional escrow record under `DataKey::Balance`. -/
structure ContractState where
  init : Bool
  balance : Option ClaimableBalance
deriving DecidableEq, Repr

/-- The storage state of a freshly deployed instance: no `Init` flag, no
`Balance` record. -/
def initialState : ContractState := ⟨false, none⟩

/-- The failure tags of the contract, one per panic site, named as in the
spec's error taxonomy (the `.unwrap()` on the absent `Balance` entry in
`claim` is the spec's `NotInitialized`). -/
inductive Error where
  | InvalidAmount
  | TooManyBeneficiaries
  | AlreadyInitialized
  | Unauthorized
  | NotInitialized
  | NotABeneficiary
  | TimeBoundNotSatisfied
  | AlreadyClaimed
deriving DecidableEq, Repr

/-- One token transfer performed by an invocation:
`transfer(source, dest, amount)` on the token contract `token`. -/
structure Transfer where
  source : Address
  dest : Address
  token : Address
  amount : Int
deriving DecidableEq, Repr

/-- `check_time_bound` from the source: `Before` admits
`ledger_timestamp <= timestamp`, `After` admits
`ledger_timestamp >= timestamp`. -/
def check_time_bound (now : Nat) (time_bound : TimeBound) : Bool :=
  match time_bound.kind with
  | .Before => now ≤ time_bound.timestamp
  | .After => now ≥ time_bound.timestamp

/-- `deposit` from the source.  `self` is `env.current_contract_address()`;
`auth` tells which identities `require_auth` accepts in this invocation.
The checks appear in the source's order: negative amount, beneficiary
count above 10, `Init` already present, then `from.require_auth()`;
afterwards the transfer of `amount_per_beneficiary * beneficiaries.len()`
into the contract, the write of the `Balance` record with an empty claimed
list, and the write of the `Init` flag. -/
def deposit (st : ContractState) (auth : Address → Bool) (self : Address)
    (sender tok : Address) (amount_per_beneficiary : Int)
    (beneficiaries : List Address) (timebound : TimeBound) :
    Except Error (ContractState × List Transfer) :=
  if amount_per_beneficiary < 0 then
    .error .InvalidAmount
  else if beneficiaries.length > 10 then
    .error .TooManyBeneficiaries
  else if st.init then
    .error .AlreadyInitialized
  else if ¬ auth sender then
    .error .Unauthorized
  else
    let total_amount := amount_per_beneficiary * (beneficiaries.length : Int)
    .ok (⟨true,
          some ⟨tok, amount_per_beneficiary, total_amount, beneficiaries,
                [], timebound⟩⟩,
         [⟨sender, self, tok, total_amount⟩])

/-- `claim` from the source.  `beneficiary.require_auth()` first; then the
`Balance` record is fetched and `.unwrap()`ped (absence aborts); then the
membership, time-bound and already-claimed checks in the source's order;
then the claimant is appended to the claimed list, the per-beneficiary
amount is transferred out, and the record is removed when the claimed
list has reached the beneficiaries list's length, else rewritten with
`total_amount` decremented. -/
def claim (st : ContractState) (auth : Address → Bool) (self : Address)
    (now : Nat) (beneficiary : Address) :
    Except Error (ContractState × List Transfer) :=
  if ¬ auth beneficiary then
    .error .Unauthorized
  else
    match st.balance with
    | none => .error .NotInitialized
    | some cb =>
      if ¬ cb.beneficiaries.contains beneficiary then
        .error .NotABeneficiary
      else if ¬ check_time_bound now cb.time_bound then
        .error .TimeBoundNotSatisfied
      else if cb.claimed_beneficiaries.contains beneficiary then
        .error .AlreadyClaimed
      else
        let claimed := cb.claimed_beneficiaries ++ [beneficiary]
        let payout : Transfer :=
          ⟨self, beneficiary, cb.token, cb.amount_per_beneficiary⟩
        if claimed.length = cb.beneficiaries.length then
          .ok (⟨st.init, none⟩, [payout])
        else
          .ok (⟨st.init,
                some ⟨cb.token, cb.amount_per_beneficiary,
                      cb.total_amount - cb.amount_per_beneficiary,
                      cb.beneficiaries, claimed, cb.time_bound⟩⟩,
               [payout])

/-- One transition of the contract: a successful `deposit` or a
successful `claim` (failed invocations abort and leave the state as it
was, so they generate no transition). -/
inductive Step : ContractState → ContractState → Prop where
  | depositStep {st st' : ContractState} {auth : Address → Bool}
      {self sender tok : Address} {a : Int} {bs : List Address}
      {tb : TimeBound} {ts : List Transfer}
      (h : deposit st auth self sender tok a bs tb = .ok (st', ts)) :
      Step st st'
  | claimStep {st st' : ContractState} {auth : Address → Bool}
      {self : Address} {now : Nat} {b : Address} {ts : List Transfer}
      (h : claim st auth self now b = .ok (st', ts)) :
      Step st st'

/-- Zero or more transitions. -/
inductive Steps : ContractState → ContractState → Prop where
  | refl {st : ContractState} : Steps st st
  | tail {s t u : ContractState} (hst : Steps s t) (htu : Step t u) :
      Steps s u

/-- A state is reachable when some run of the contract from a fresh
instance produces it. -/
def Reachable (st : ContractState) : Prop := Steps initialState st

/-- Inversion of a successful `deposit`: all four checks passed and the
post-state and transfer list are exactly the ones the source writes. -/
theorem deposit_ok_inv {st st' : ContractState} {auth : Address → Bool}
    {self sender tok : Address} {a : Int} {bs : List Address}
    {tb : TimeBound} {ts : List Transfer}
    (h : deposit st auth self sender tok a bs tb = .ok (st', ts)) :
    0 ≤ a ∧ bs.length ≤ 10 ∧ st.init = false ∧ auth sender = true ∧
    st' = ⟨true, some ⟨tok, a, a * (bs.length : Int), bs, [], tb⟩⟩ ∧
    ts = [⟨sender, self, tok, a * (bs.length : Int)⟩] := by
  unfold deposit at h
  split_ifs at h with h1 h2 h3 h4
  · refine ⟨le_of_not_lt h1, le_of_not_lt h2, ?_, ?_, ?_, ?_⟩
    · cases hst : st.init with
      | false => rfl
      | true => exact absurd hst h3
    · simpa using h4
    · exact (by injection h with h5; injection h5 with hl hr; exact hl.symm)
    · exact (by injection h with h5; injection h5 with hl hr; exact hr.symm)

/-- Inversion of a successful `claim`: the record existed, every check
passed, the payout transfer happened, and the post-state is either the
record's deletion (claimed list full) or the decremented rewrite. -/
theorem claim_ok_inv {st st' : ContractState} {auth : Address → Bool}
    {self : Address} {now : Nat} {b : Address} {ts : List Transfer}
    (h : claim st auth self now b = .ok (st', ts)) :
    ∃ cb, st.balance = some cb ∧ auth b = true ∧
      b ∈ cb.beneficiaries ∧ check_time_bound now cb.time_bound = true ∧
      b ∉ cb.claimed_beneficiaries ∧
      ts = [⟨self, b, cb.token, cb.amount_per_beneficiary⟩] ∧
      ((cb.claimed_beneficiaries.length + 1 = cb.beneficiaries.length ∧
        st' = ⟨st.init, none⟩) ∨
       (cb.claimed_beneficiaries.length + 1 ≠ cb.beneficiaries.length ∧
        st' = ⟨st.init,
               some ⟨cb.token, cb.amount_per_beneficiary,
                     cb.total_amount - cb.amount_per_beneficiary,
                     cb.beneficiaries, cb.claimed_beneficiaries ++ [b],
                     cb.time_bound⟩⟩)) := by
  unfold claim at h
  split_ifs at h with h1
  cases hbal : st.balance with
  | none => rw [hbal] at h; exact absurd h (by simp)
  | some cb =>
    rw [hbal] at h
    simp only at h
    split_ifs at h with h2 h3 h4 h5
    · refine ⟨cb, rfl, by simpa using h1, by simpa using h2, by simpa using h3,
        by simpa using h4, ?_, ?_⟩
      · injection h with h6; injection h6 with hl hr; exact hr.symm
      · left
        refine ⟨by simpa using h5, ?_⟩
        injection h with h6; injection h6 with hl hr; exact hl.symm
    · refine ⟨cb, rfl, by simpa using h1, by simpa using h2, by simpa using h3,
        by simpa using h4, ?_, ?_⟩
      · injection h with h6; injection h6 with hl hr; exact hr.symm
      · right
        refine ⟨by simpa using h5, ?_⟩
        injection h with h6; injection h6 with hl hr; exact hl.symm

/-- The record-level invariant: the claimed list lies inside the
beneficiaries list and the remaining balance is the per-beneficiary amount
times the number of beneficiaries still outstanding. -/
def RecordInv (cb : ClaimableBalance) : Prop :=
  (∀ b ∈ cb.claimed_beneficiaries, b ∈ cb.beneficiaries) ∧
  cb.total_amount = cb.amount_per_beneficiary *
    ((cb.beneficiaries.length : Int) - (cb.claimed_beneficiaries.length : Int))

/-- The state-level invariant: whenever the `Balance` record exists, the
`Init` flag is set and the record satisfies `RecordInv`. -/
def StateInv (st : ContractState) : Prop :=
  ∀ cb, st.balance = some cb → st.init = true ∧ RecordInv cb

theorem stateInv_initial : StateInv initialState := by
  intro cb hcb
  simp [initialState] at hcb

theorem stateInv_step {st st' : ContractState} (hinv : StateInv st)
    (hstep : Step st st') : StateInv st' := by
  cases hstep with
  | depositStep h =>
    obtain ⟨_, _, _, _, hst', _⟩ := deposit_ok_inv h
    subst hst'
    intro cb hcb
    simp only [Option.some_inj] at hcb
    subst hcb
    refine ⟨rfl, ?_, ?_⟩
    · intro b hb; simp at hb
    · simp
  | claimStep h =>
    obtain ⟨cb, hbal, _, hmem, _, hnotcl, _, hpost⟩ := claim_ok_inv h
    obtain ⟨hinit, hsub, htot⟩ := hinv cb hbal
    cases hpost with
    | inl hdel =>
      obtain ⟨_, hst'⟩ := hdel
      subst hst'
      intro cb' hcb'
      simp at hcb'
    | inr hkeep =>
      obtain ⟨hne, hst'⟩ := hkeep
      subst hst'
      intro cb' hcb'
      simp only [Option.some_inj] at hcb'
      subst hcb'
      refine ⟨hinit, ?_, ?_⟩
      · intro x hx
        simp only [List.mem_append, List.mem_singleton] at hx
        cases hx with
        | inl hx => exact hsub x hx
        | inr hx => exact hx ▸ hmem
      · simp only [List.length_append, List.length_singleton]
        rw [htot]
        push_cast
        ring

/-- The invariant holds along every run. -/
theorem steps_stateInv {s t : ContractState} (hinv : StateInv s)
    (hsteps : Steps s t) : StateInv t := by
  induction hsteps with
  | refl => exact hinv
  | tail _ hstep ih => exact stateInv_step ih hstep

theorem reachable_stateInv {st : ContractState} (h : Reachable st) :
    StateInv st :=
  steps_stateInv stateInv_initial h

/-! Concrete runs used by witnesses and counterexamples.  Identities:
`0` is the contract's own address, `1` the depositor, `2` the token,
`3` and `4` beneficiaries.  `authAll` is the test harness's
`mock_all_auths`. -/

/-- An invocation authenticated for every identity. -/
def authAll : Address → Bool := fun _ => true

/-- An invocation authenticated for no identity. -/
def authNone : Address → Bool := fun _ => false

/-- A `Before 100` bound. -/
def tbBefore : TimeBound := ⟨.Before, 100⟩

/-- An `After 100` bound. -/
def tbAfter : TimeBound := ⟨.After, 100⟩

/-- The record stored by `deposit(sender 1, token 2, amount 5,
beneficiaries [3, 4], Before 100)`. -/
def cbAfterDeposit : ClaimableBalance := ⟨2, 5, 10, [3, 4], [], tbBefore⟩

/-- The state right after that deposit. -/
def stAfterDeposit : ContractState := ⟨true, some cbAfterDeposit⟩

/-- The record after beneficiary 3 then claims at time 50. -/
def cbAfterFirstClaim : ClaimableBalance := ⟨2, 5, 5, [3, 4], [3], tbBefore⟩

/-- The state after that first claim. -/
def stAfterFirstClaim : ContractState := ⟨true, some cbAfterFirstClaim⟩

/-- The state after beneficiary 4 also claims: the record is gone, the
`Init` flag remains. -/
def stFullyClaimed : ContractState := ⟨true, none⟩

theorem deposit_run_eq :
    deposit initialState authAll 0 1 2 5 [3, 4] tbBefore =
      .ok (stAfterDeposit, [⟨1, 0, 2, 10⟩]) := rfl

theorem reachable_stAfterDeposit : Reachable stAfterDeposit :=
  Steps.tail Steps.refl (Step.depositStep deposit_run_eq)

theorem claim_run1_eq :
    claim stAfterDeposit authAll 0 50 3 =
      .ok (stAfterFirstClaim, [⟨0, 3, 2, 5⟩]) := rfl

theorem reachable_stAfterFirstClaim : Reachable stAfterFirstClaim :=
  Steps.tail reachable_stAfterDeposit (Step.claimStep claim_run1_eq)

theorem claim_run2_eq :
    claim stAfterFirstClaim authAll 0 50 4 =
      .ok (stFullyClaimed, [⟨0, 4, 2, 5⟩]) := rfl

theorem reachable_stFullyClaimed : Reachable stFullyClaimed :=
  Steps.tail reachable_stAfterFirstClaim (Step.claimStep claim_run2_eq)

/-! A run whose beneficiary list holds a duplicate identity: `deposit`
never checks distinctness, so `[3, 3, 4]` is accepted as given. -/

/-- The record stored by `deposit(sender 1, token 2, amount 5,
beneficiaries [3, 3, 4], Before 100)`. -/
def cbDup : ClaimableBalance := ⟨2, 5, 15, [3, 3, 4], [], tbBefore⟩

/-- The state right after the duplicate-list deposit. -/
def stDup : ContractState := ⟨true, some cbDup⟩

/-- The duplicate-list record after beneficiary 3 claims at time 50. -/
def cbDup1 : ClaimableBalance := ⟨2, 5, 10, [3, 3, 4], [3], tbBefore⟩

/-- The duplicate-list state after that claim. -/
def stDup1 : ContractState := ⟨true, some cbDup1⟩

/-- The duplicate-list record after beneficiary 4 also claims: every
identity has claimed, yet the claimed list is shorter than the
beneficiaries list, so the record survives. -/
def cbDup2 : ClaimableBalance := ⟨2, 5, 5, [3, 3, 4], [3, 4], tbBefore⟩

/-- The duplicate-list state after both identities have claimed. -/
def stDup2 : ContractState := ⟨true, some cbDup2⟩

theorem deposit_dup_eq :
    deposit initialState authAll 0 1 2 5 [3, 3, 4] tbBefore =
      .ok (stDup, [⟨1, 0, 2, 15⟩]) := rfl

theorem reachable_stDup : Reachable stDup :=
  Steps.tail Steps.refl (Step.depositStep deposit_dup_eq)

theorem claim_dup1_eq :
    claim stDup authAll 0 50 3 = .ok (stDup1, [⟨0, 3, 2, 5⟩]) := rfl

theorem reachable_stDup1 : Reachable stDup1 :=
  Steps.tail reachable_stDup (Step.claimStep claim_dup1_eq)

theorem claim_dup2_eq :
    claim stDup1 authAll 0 50 4 = .ok (stDup2, [⟨0, 4, 2, 5⟩]) := rfl

theorem reachable_stDup2 : Reachable stDup2 :=
  Steps.tail reachable_stDup1 (Step.claimStep claim_dup2_eq)

/-- C1: in every reachable state in which the `Balance` record exists,
the claimed list is contained in the beneficiaries list and
`total_amount = amount_per_beneficiary * (|beneficiaries| - |claimed_beneficiaries|)`;
reachability quantifies over all runs, so both relations are preserved by
every deposit and every claim transition. -/
theorem escrow_record_invariant {st : ContractState} (h : Reachable st)
    {cb : ClaimableBalance} (hcb : st.balance = some cb) :
    (∀ b ∈ cb.claimed_beneficiaries, b ∈ cb.beneficiaries) ∧
    cb.total_amount = cb.amount_per_beneficiary *
      ((cb.beneficiaries.length : Int) -
        (cb.claimed_beneficiaries.length : Int)) :=
  (reachable_stateInv h cb hcb).2

/-- Witness for C1, at the reachable state after one claim of the
two-beneficiary run. -/
theorem escrow_record_invariant_witness :
    (∀ b ∈ cbAfterFirstClaim.claimed_beneficiaries,
       b ∈ cbAfterFirstClaim.beneficiaries) ∧
    cbAfterFirstClaim.total_amount = cbAfterFirstClaim.amount_per_beneficiary *
      ((cbAfterFirstClaim.beneficiaries.length : Int) -
        (cbAfterFirstClaim.claimed_beneficiaries.length : Int)) :=
  escrow_record_invariant reachable_stAfterFirstClaim rfl

/-- C2 counterexample: in the reachable state right after a successful
deposit (so the `Init` flag is set), a second `deposit` call with
`amount_per_beneficiary = -1` fails with `InvalidAmount`, not
`AlreadyInitialized`: the amount check precedes the `Init` check. -/
theorem second_deposit_cex :
    Reachable stAfterDeposit ∧ stAfterDeposit.init = true ∧
    deposit stAfterDeposit authAll 0 1 2 (-1) [] tbBefore =
      .error .InvalidAmount ∧
    Error.InvalidAmount ≠ Error.AlreadyInitialized :=
  ⟨reachable_stAfterDeposit, rfl, rfl, by decide⟩

/-- C2 amended: once the `Init` flag is set (it is written at successful
deposit and no transition ever clears it, so it persists even after the
record's deletion), a second `deposit` whose parameters pass the earlier
checks (`amount_per_beneficiary ≥ 0`, at most 10 beneficiaries) fails
with `AlreadyInitialized`; a second call with a negative amount fails
with `InvalidAmount` and one with more than 10 beneficiaries with
`TooManyBeneficiaries`, those checks coming first. -/
theorem second_deposit_fails {st : ContractState} (h : Reachable st)
    (hinit : st.init = true) (auth : Address → Bool)
    (self sender tok : Address) (a : Int) (bs : List Address)
    (tb : TimeBound) :
    (0 ≤ a → bs.length ≤ 10 →
       deposit st auth self sender tok a bs tb =
         .error .AlreadyInitialized) ∧
    (a < 0 →
       deposit st auth self sender tok a bs tb = .error .InvalidAmount) ∧
    (0 ≤ a → 10 < bs.length →
       deposit st auth self sender tok a bs tb =
         .error .TooManyBeneficiaries) := by
  refine ⟨fun ha hbs => ?_, fun ha => ?_, fun ha hbs => ?_⟩
  · unfold deposit
    rw [if_neg (not_lt.2 ha), if_neg (not_lt.2 hbs), if_pos hinit]
  · unfold deposit
    rw [if_pos ha]
  · unfold deposit
    rw [if_neg (not_lt.2 ha), if_pos hbs]

/-- Witness for C2's amended statement, in the reachable state where the
record has been fully claimed and removed but `Init` survives. -/
theorem second_deposit_fails_witness :
    deposit stFullyClaimed authAll 0 1 2 5 [3, 4] tbBefore =
      .error .AlreadyInitialized ∧
    deposit stFullyClaimed authAll 0 1 2 (-1) [3, 4] tbBefore =
      .error .InvalidAmount ∧
    deposit stFullyClaimed authAll 0 1 2 5 [0, 1, 2, 3, 4, 5, 6, 7, 8, 9, 10]
      tbBefore = .error .TooManyBeneficiaries :=
  ⟨(second_deposit_fails reachable_stFullyClaimed rfl authAll 0 1 2 5 [3, 4]
      tbBefore).1 (by decide) (by decide),
   (second_deposit_fails reachable_stFullyClaimed rfl authAll 0 1 2 (-1)
      [3, 4] tbBefore).2.1 (by decide),
   (second_deposit_fails reachable_stFullyClaimed rfl authAll 0 1 2 5
      [0, 1, 2, 3, 4, 5, 6, 7, 8, 9, 10] tbBefore).2.2 (by decide)
      (by decide)⟩

/-- C3: when no record exists under the `Balance` key, `claim` by any
authenticated identity fails with `NotInitialized` (the `.unwrap()` on
the absent entry); an `.error` outcome in this model is an aborted
invocation, so no state is changed and no transfer occurs. -/
theorem claim_no_record_fails {st : ContractState} {auth : Address → Bool}
    {self : Address} {now : Nat} {b : Address}
    (hbal : st.balance = none) (hauth : auth b = true) :
    claim st auth self now b = .error .NotInitialized := by
  unfold claim
  rw [if_neg (by simp [hauth]), hbal]

/-- Witness for C3: a claim on the fresh instance, and a claim on the
fully-claimed-and-removed state, both fail with `NotInitialized`. -/
theorem claim_no_record_fails_witness :
    claim initialState authAll 0 50 3 = .error .NotInitialized ∧
    claim stFullyClaimed authAll 0 50 3 = .error .NotInitialized :=
  ⟨claim_no_record_fails rfl rfl, claim_no_record_fails rfl rfl⟩

/-- C4: `deposit` checks its preconditions in the source's fixed order —
negative amount, then beneficiary count above 10, then the `Init` flag,
then the depositor's authorization — and the first violated check names
the error.  Every failing branch returns `.error` before the transfer
and the storage writes, which in this model means no transfer and no
state change. -/
theorem deposit_check_order (st : ContractState) (auth : Address → Bool)
    (self sender tok : Address) (a : Int) (bs : List Address)
    (tb : TimeBound) :
    (a < 0 →
       deposit st auth self sender tok a bs tb = .error .InvalidAmount) ∧
    (0 ≤ a → 10 < bs.length →
       deposit st auth self sender tok a bs tb =
         .error .TooManyBeneficiaries) ∧
    (0 ≤ a → bs.length ≤ 10 → st.init = true →
       deposit st auth self sender tok a bs tb =
         .error .AlreadyInitialized) ∧
    (0 ≤ a → bs.length ≤ 10 → st.init = false → auth sender = false →
       deposit st auth self sender tok a bs tb = .error .Unauthorized) := by
  refine ⟨fun ha => ?_, fun ha hbs => ?_, fun ha hbs hin => ?_,
    fun ha hbs hin hau => ?_⟩
  · unfold deposit
    rw [if_pos ha]
  · unfold deposit
    rw [if_neg (not_lt.2 ha), if_pos hbs]
  · unfold deposit
    rw [if_neg (not_lt.2 ha), if_neg (not_lt.2 hbs), if_pos hin]
  · unfold deposit
    rw [if_neg (not_lt.2 ha), if_neg (not_lt.2 hbs), if_neg (by simp [hin]),
      if_pos (by simp [hau])]

/-- Witness for C4: one concrete input per failing branch. -/
theorem deposit_check_order_witness :
    deposit initialState authAll 0 1 2 (-1) [3] tbBefore =
      .error .InvalidAmount ∧
    deposit initialState authAll 0 1 2 5 [0, 1, 2, 3, 4, 5, 6, 7, 8, 9, 10]
      tbBefore = .error .TooManyBeneficiaries ∧
    deposit stAfterDeposit authAll 0 1 2 5 [3] tbBefore =
      .error .AlreadyInitialized ∧
    deposit initialState authNone 0 1 2 5 [3] tbBefore =
      .error .Unauthorized :=
  ⟨(deposit_check_order initialState authAll 0 1 2 (-1) [3] tbBefore).1
      (by decide),
   (deposit_check_order initialState authAll 0 1 2 5
      [0, 1, 2, 3, 4, 5, 6, 7, 8, 9, 10] tbBefore).2.1 (by decide)
      (by decide),
   (deposit_check_order stAfterDeposit authAll 0 1 2 5 [3] tbBefore).2.2.1
      (by decide) (by decide) rfl,
   (deposit_check_order initialState authNone 0 1 2 5 [3] tbBefore).2.2.2
      (by decide) (by decide) rfl rfl⟩

/-- C5: every successful `deposit` stores the record with
`total_amount = amount_per_beneficiary * |beneficiaries|`, an empty
claimed list, and the given token, beneficiaries and time bound, and
sets the `Init` flag. -/
theorem deposit_ok_postcondition {st st' : ContractState}
    {auth : Address → Bool} {self sender tok : Address} {a : Int}
    {bs : List Address} {tb : TimeBound} {ts : List Transfer}
    (h : deposit st auth self sender tok a bs tb = .ok (st', ts)) :
    st'.init = true ∧
    st'.balance = some ⟨tok, a, a * (bs.length : Int), bs, [], tb⟩ := by
  obtain ⟨-, -, -, -, hst', -⟩ := deposit_ok_inv h
  subst hst'
  exact ⟨rfl, rfl⟩

/-- Witness for C5, at the concrete two-beneficiary deposit. -/
theorem deposit_ok_postcondition_witness :
    stAfterDeposit.init = true ∧
    stAfterDeposit.balance =
      some ⟨2, 5, 5 * ((([3, 4] : List Address).length : Nat) : Int),
            [3, 4], [], tbBefore⟩ :=
  deposit_ok_postcondition deposit_run_eq

/-- C6: the time gate is inclusive at the boundary: a `Before` bound
admits the claim iff `now ≤ timestamp`, an `After` bound iff
`now ≥ timestamp`, at `now = timestamp` the gate holds for both kinds,
and a claim whose record exists, whose claimant is an authenticated
beneficiary and whose gate fails is rejected with
`TimeBoundNotSatisfied`. -/
theorem time_gate_spec (now : Nat) (tb : TimeBound) :
    (tb.kind = .Before →
       (check_time_bound now tb = true ↔ now ≤ tb.timestamp)) ∧
    (tb.kind = .After →
       (check_time_bound now tb = true ↔ tb.timestamp ≤ now)) ∧
    check_time_bound tb.timestamp tb = true ∧
    (∀ (st : ContractState) (cb : ClaimableBalance) (auth : Address → Bool)
       (self b : Address), st.balance = some cb → auth b = true →
       b ∈ cb.beneficiaries → check_time_bound now cb.time_bound = false →
       claim st auth self now b = .error .TimeBoundNotSatisfied) := by
  refine ⟨fun hk => ?_, fun hk => ?_, ?_, ?_⟩
  · simp [check_time_bound, hk]
  · simp [check_time_bound, hk]
  · cases hk : tb.kind <;> simp [check_time_bound, hk]
  · intro st cb auth self b hbal hauth hmem hgate
    unfold claim
    rw [if_neg (by simp [hauth]), hbal]
    simp only
    rw [if_neg (by simp [hmem]), if_pos (by simp [hgate])]

/-- Witness for C6: both directions of the gate at concrete boundary and
non-boundary times, and a concrete claim at time 200 against a
`Before 100` bound failing with `TimeBoundNotSatisfied`. -/
theorem time_gate_spec_witness :
    (check_time_bound 50 tbBefore = true ↔ 50 ≤ tbBefore.timestamp) ∧
    (check_time_bound 150 tbAfter = true ↔ tbAfter.timestamp ≤ 150) ∧
    check_time_bound tbBefore.timestamp tbBefore = true ∧
    check_time_bound tbAfter.timestamp tbAfter = true ∧
    claim stAfterDeposit authAll 0 200 3 = .error .TimeBoundNotSatisfied :=
  ⟨(time_gate_spec 50 tbBefore).1 rfl,
   (time_gate_spec 150 tbAfter).2.1 rfl,
   (time_gate_spec 0 tbBefore).2.2.1,
   (time_gate_spec 0 tbAfter).2.2.1,
   (time_gate_spec 200 tbBefore).2.2.2 stAfterDeposit cbAfterDeposit authAll
     0 3 rfl rfl (by decide) (by decide)⟩

/-- C7 counterexample: in the reachable duplicate-list state `stDup1`
(beneficiaries `[3, 3, 4]`, claimed `[3]`) exactly one identity — `4` —
has not yet claimed, yet the successful claim by `4` does not delete the
record: the deletion test compares list lengths (2 against 3), so the
record survives with a positive remaining balance no one can claim. -/
theorem last_claim_deletes_cex :
    Reachable stDup1 ∧ stDup1.balance = some cbDup1 ∧
    (∀ b : Address,
       (b ∈ cbDup1.beneficiaries ∧ b ∉ cbDup1.claimed_beneficiaries) ↔
         b = 4) ∧
    claim stDup1 authAll 0 50 4 = .ok (stDup2, [⟨0, 4, 2, 5⟩]) ∧
    stDup2.balance ≠ none :=
  ⟨reachable_stDup1, rfl,
   by
     intro b
     show (b ∈ [3, 3, 4] ∧ b ∉ [3]) ↔ b = 4
     constructor
     · rintro ⟨hmem, hnot⟩
       simp only [List.mem_cons, List.not_mem_nil, or_false] at hmem
       simp only [List.mem_singleton] at hnot
       rcases hmem with h | h | h <;> first | exact absurd h hnot | exact h
     · rintro rfl
       exact ⟨by simp, by simp⟩,
   claim_dup2_eq,
   by simp [stDup2]⟩

/-- C7 amended: a successful claim deletes the `Balance` record exactly
when the updated claimed list's length reaches the beneficiaries list's
length; every other successful claim persists the record with
`total_amount` decremented by `amount_per_beneficiary` (for duplicate-free
beneficiary lists the length test coincides with the last outstanding
beneficiary claiming, but `deposit` does not enforce distinctness). -/
theorem claim_removal_condition {st st' : ContractState}
    {cb : ClaimableBalance} {auth : Address → Bool} {self : Address}
    {now : Nat} {b : Address} {ts : List Transfer}
    (hbal : st.balance = some cb)
    (h : claim st auth self now b = .ok (st', ts)) :
    (cb.claimed_beneficiaries.length + 1 = cb.beneficiaries.length →
       st'.balance = none) ∧
    (cb.claimed_beneficiaries.length + 1 ≠ cb.beneficiaries.length →
       st'.balance =
         some ⟨cb.token, cb.amount_per_beneficiary,
               cb.total_amount - cb.amount_per_beneficiary,
               cb.beneficiaries, cb.claimed_beneficiaries ++ [b],
               cb.time_bound⟩) := by
  obtain ⟨cb', hbal', -, -, -, -, -, hpost⟩ := claim_ok_inv h
  rw [hbal] at hbal'
  injection hbal' with hcb
  subst hcb
  cases hpost with
  | inl hdel =>
    obtain ⟨hlen, hst'⟩ := hdel
    subst hst'
    exact ⟨fun _ => rfl, fun hne => absurd hlen hne⟩
  | inr hkeep =>
    obtain ⟨hne, hst'⟩ := hkeep
    subst hst'
    exact ⟨fun hlen => absurd hlen hne, fun _ => rfl⟩

/-- Witness for C7's amended statement: the final claim of the
two-beneficiary run deletes the record, and the first claim of the same
run persists it with the decremented total. -/
theorem claim_removal_condition_witness :
    (cbAfterFirstClaim.claimed_beneficiaries.length + 1 =
         cbAfterFirstClaim.beneficiaries.length →
       stFullyClaimed.balance = none) ∧
    (cbAfterDeposit.claimed_beneficiaries.length + 1 ≠
         cbAfterDeposit.beneficiaries.length →
       stAfterFirstClaim.balance =
         some ⟨cbAfterDeposit.token, cbAfterDeposit.amount_per_beneficiary,
               cbAfterDeposit.total_amount -
                 cbAfterDeposit.amount_per_beneficiary,
               cbAfterDeposit.beneficiaries,
               cbAfterDeposit.claimed_beneficiaries ++ [3],
               cbAfterDeposit.time_bound⟩) :=
  ⟨(claim_removal_condition rfl claim_run2_eq).1,
   (claim_removal_condition rfl claim_run1_eq).2⟩

/-- C8 counterexample: beneficiary `3` has already claimed in the
reachable state `stAfterFirstClaim`, but its further claim at time 200 —
past the `Before 100` bound — fails with `TimeBoundNotSatisfied`, not
`AlreadyClaimed`: the time-gate check precedes the already-claimed
check. -/
theorem already_claimed_cex :
    Reachable stAfterFirstClaim ∧
    stAfterFirstClaim.balance = some cbAfterFirstClaim ∧
    3 ∈ cbAfterFirstClaim.claimed_beneficiaries ∧
    claim stAfterFirstClaim authAll 0 200 3 =
      .error .TimeBoundNotSatisfied ∧
    Error.TimeBoundNotSatisfied ≠ Error.AlreadyClaimed :=
  ⟨reachable_stAfterFirstClaim, rfl, by decide, rfl, by decide⟩

/-- C8 amended: a further claim by an already-claimed, authenticated
beneficiary always fails — with `AlreadyClaimed` when the time gate holds
at that moment, and with `TimeBoundNotSatisfied` when it does not; an
`.error` outcome in this model is an aborted invocation, so in either
case no transfer occurs and the stored record is unchanged. -/
theorem claim_at_most_once {st : ContractState} {cb : ClaimableBalance}
    {auth : Address → Bool} {self : Address} {now : Nat} {b : Address}
    (hreach : Reachable st) (hbal : st.balance = some cb)
    (hclaimed : b ∈ cb.claimed_beneficiaries) (hauth : auth b = true) :
    (check_time_bound now cb.time_bound = true →
       claim st auth self now b = .error .AlreadyClaimed) ∧
    (check_time_bound now cb.time_bound = false →
       claim st auth self now b = .error .TimeBoundNotSatisfied) := by
  have hmem : b ∈ cb.beneficiaries :=
    ((reachable_stateInv hreach cb hbal).2.1) b hclaimed
  constructor
  · intro hgate
    unfold claim
    rw [if_neg (by simp [hauth]), hbal]
    simp only
    rw [if_neg (by simp [hmem]), if_neg (by simp [hgate]),
      if_pos (by simp [hclaimed])]
  · intro hgate
    unfold claim
    rw [if_neg (by simp [hauth]), hbal]
    simp only
    rw [if_neg (by simp [hmem]), if_pos (by simp [hgate])]

/-- Witness for C8's amended statement: beneficiary `3`, having claimed
at time 50, is rejected with `AlreadyClaimed` inside the bound and with
`TimeBoundNotSatisfied` outside it. -/
theorem claim_at_most_once_witness :
    claim stAfterFirstClaim authAll 0 50 3 = .error .AlreadyClaimed ∧
    claim stAfterFirstClaim authAll 0 200 3 =
      .error .TimeBoundNotSatisfied :=
  ⟨(claim_at_most_once reachable_stAfterFirstClaim rfl (by decide) rfl).1
      (by decide),
   (claim_at_most_once reachable_stAfterFirstClaim rfl (by decide) rfl).2
      (by decide)⟩

/-- C9 counterexample: `deposit` never checks distinctness, so the
duplicate list `[3, 3, 4]` is accepted and stored as given: the
reachable state `stDup` holds a record whose beneficiaries list is not
pairwise distinct. -/
theorem distinct_beneficiaries_cex :
    Reachable stDup ∧ stDup.balance = some cbDup ∧
    ¬ cbDup.beneficiaries.Nodup :=
  ⟨reachable_stDup, rfl, by decide⟩

/-- C9 amended: the beneficiaries list is stored exactly as supplied to
`deposit` and no later operation mutates it — a successful claim rewrites
the record with the same list — but distinctness is not enforced, so
stored records may contain duplicate identities. -/
theorem beneficiaries_fixed (st st' : ContractState)
    (auth : Address → Bool) (self sender tok : Address) (a : Int)
    (bs : List Address) (tb : TimeBound) (now : Nat) (b : Address)
    (ts : List Transfer) (cb : ClaimableBalance) :
    (deposit st auth self sender tok a bs tb = .ok (st', ts) →
       ∀ cb', st'.balance = some cb' → cb'.beneficiaries = bs) ∧
    (st.balance = some cb → claim st auth self now b = .ok (st', ts) →
       ∀ cb', st'.balance = some cb' →
         cb'.beneficiaries = cb.beneficiaries) := by
  constructor
  · intro h cb' hcb'
    obtain ⟨-, -, -, -, hst', -⟩ := deposit_ok_inv h
    subst hst'
    simp only [Option.some_inj] at hcb'
    subst hcb'
    rfl
  · intro hbal h cb' hcb'
    obtain ⟨cb'', hbal', -, -, -, -, -, hpost⟩ := claim_ok_inv h
    rw [hbal] at hbal'
    injection hbal' with hcb
    subst hcb
    cases hpost with
    | inl hdel =>
      obtain ⟨-, hst'⟩ := hdel
      subst hst'
      simp at hcb'
    | inr hkeep =>
      obtain ⟨-, hst'⟩ := hkeep
      subst hst'
      simp only [Option.some_inj] at hcb'
      subst hcb'
      rfl

/-- Witness for C9's amended statement: the duplicate-list deposit stores
its list verbatim, and the first claim of the two-beneficiary run leaves
the beneficiaries list untouched. -/
theorem beneficiaries_fixed_witness :
    cbDup.beneficiaries = [3, 3, 4] ∧
    cbAfterFirstClaim.beneficiaries = cbAfterDeposit.beneficiaries :=
  ⟨(beneficiaries_fixed initialState stDup authAll 0 1 2 5 [3, 3, 4]
      tbBefore 0 0 [⟨1, 0, 2, 15⟩] cbDup).1 deposit_dup_eq cbDup rfl,
   (beneficiaries_fixed stAfterDeposit stAfterFirstClaim authAll 0 1 2 5
      [3, 4] tbBefore 50 3 [⟨0, 3, 2, 5⟩] cbAfterDeposit).2 rfl
      claim_run1_eq cbAfterFirstClaim rfl⟩

/-- C10: a deposit with an empty beneficiaries list (amount ≥ 0,
uninitialized instance, authorized depositor) succeeds, transfers 0
units, and stores a record with `total_amount = 0` and both lists empty;
every authenticated claim on the resulting state fails with
`NotABeneficiary`, and since only a successful claim deletes the record,
no run from that state ever changes it — the record is never removed. -/
theorem empty_beneficiaries_deposit {st : ContractState}
    {auth : Address → Bool} {self sender tok : Address} {a : Int}
    {tb : TimeBound}
    (ha : 0 ≤ a) (hinit : st.init = false) (hauth : auth sender = true) :
    deposit st auth self sender tok a [] tb =
      .ok (⟨true, some ⟨tok, a, 0, [], [], tb⟩⟩,
           [⟨sender, self, tok, 0⟩]) ∧
    (∀ (auth' : Address → Bool) (self' : Address) (now : Nat)
       (b : Address), auth' b = true →
       claim ⟨true, some ⟨tok, a, 0, [], [], tb⟩⟩ auth' self' now b =
         .error .NotABeneficiary) ∧
    (∀ st',
       Steps (⟨true, some ⟨tok, a, 0, [], [], tb⟩⟩ : ContractState) st' →
       st' = ⟨true, some ⟨tok, a, 0, [], [], tb⟩⟩) := by
  have hnostep : ∀ st',
      ¬ Step (⟨true, some ⟨tok, a, 0, [], [], tb⟩⟩ : ContractState) st' := by
    intro st' hstep
    cases hstep with
    | depositStep h =>
      have hfalse := (deposit_ok_inv h).2.2.1
      simp at hfalse
    | claimStep h =>
      obtain ⟨cb, hbal, -, hmem, -⟩ := claim_ok_inv h
      simp only [Option.some_inj] at hbal
      subst hbal
      simp at hmem
  refine ⟨?_, ?_, ?_⟩
  · unfold deposit
    rw [if_neg (not_lt.2 ha), if_neg (by simp), if_neg (by simp [hinit]),
      if_neg (by simp [hauth])]
    simp
  · intro auth' self' now b hb
    unfold claim
    rw [if_neg (by simp [hb])]
    simp only
    rw [if_pos (by simp)]
  · intro st' hsteps
    induction hsteps with
    | refl => rfl
    | tail hst htu ih =>
      rw [ih] at htu
      exact absurd htu (hnostep _)

/-- Witness for C10: the concrete empty-list deposit, a rejected claim
on its record, and the record's survival under the empty run. -/
theorem empty_beneficiaries_deposit_witness :
    deposit initialState authAll 0 1 2 5 [] tbBefore =
      .ok (⟨true, some ⟨2, 5, 0, [], [], tbBefore⟩⟩, [⟨1, 0, 2, 0⟩]) ∧
    claim ⟨true, some ⟨2, 5, 0, [], [], tbBefore⟩⟩ authAll 0 50 3 =
      .error .NotABeneficiary ∧
    (⟨true, some ⟨2, 5, 0, [], [], tbBefore⟩⟩ : ContractState) =
      ⟨true, some ⟨2, 5, 0, [], [], tbBefore⟩⟩ :=
  ⟨(@empty_beneficiaries_deposit initialState authAll 0 1 2 5 tbBefore
      (by decide) rfl rfl).1,
   (@empty_beneficiaries_deposit initialState authAll 0 1 2 5 tbBefore
      (by decide) rfl rfl).2.1 authAll 0 50 3 rfl,
   (@empty_beneficiaries_deposit initialState authAll 0 1 2 5 tbBefore
      (by decide) rfl rfl).2.2 _ Steps.refl⟩

end MultiPartyTimelock
